import Mathlib

set_option maxHeartbeats 1000000

namespace McpTester

/-- JSON-like runtime values as the TypeScript code manipulates them:
null, booleans, numbers, strings, arrays and plain objects (association
lists of fields in insertion order); numbers are modelled as integers. -/
inductive Json where
  | null : Json
  | bool (b : Bool) : Json
  | num (n : Int) : Json
  | str (s : String) : Json
  | arr (elems : List Json) : Json
  | obj (fields : List (String × Json)) : Json

mutual
/-- Deep structural equality of JSON-like values (arrays and objects
compare element- and field-wise, field order significant). -/
def Json.beq : Json → Json → Bool
  | .null, .null => true
  | .bool a, .bool b => a == b
  | .num a, .num b => a == b
  | .str a, .str b => a == b
  | .arr a, .arr b => Json.beqElems a b
  | .obj a, .obj b => Json.beqFields a b
  | _, _ => false

/-- Element-wise equality of JSON arrays. -/
def Json.beqElems : List Json → List Json → Bool
  | [], [] => true
  | x :: xs, y :: ys => Json.beq x y && Json.beqElems xs ys
  | _, _ => false

/-- Field-wise equality of JSON objects. -/
def Json.beqFields : List (String × Json) → List (String × Json) → Bool
  | [], [] => true
  | (k, v) :: xs, (l, w) :: ys => k == l && Json.beq v w && Json.beqFields xs ys
  | _, _ => false
end

instance : BEq Json := ⟨Json.beq⟩

/-- JavaScript typeof on a JSON-like value: typeof null and typeof an
array are both "object". -/
def typeofJson : Json → String
  | .null => "object"
  | .bool _ => "boolean"
  | .num _ => "number"
  | .str _ => "string"
  | .arr _ => "object"
  | .obj _ => "object"

/-- JavaScript Array.isArray. -/
def Json.isArr : Json → Bool
  | .arr _ => true
  | _ => false

/-- JavaScript truthiness: null, false, 0 and the empty string are falsy,
every array and object is truthy. -/
def jsTruthy : Json → Bool
  | .null => false
  | .bool b => b
  | .num n => !(n == 0)
  | .str s => !(s == "")
  | .arr _ => true
  | .obj _ => true

mutual
/-- JavaScript String(...) coercion of a JSON-like value: null prints as
"null", an array joins its elements with commas, a plain object prints as
"[object Object]". -/
def jsToString : Json → String
  | .null => "null"
  | .bool b => if b then "true" else "false"
  | .num n => toString n
  | .str s => s
  | .arr xs => jsArrJoin xs
  | .obj _ => "[object Object]"

/-- Array.prototype.toString: elements joined with commas. -/
def jsArrJoin : List Json → String
  | [] => ""
  | [x] => jsElemToString x
  | x :: y :: rest => jsElemToString x ++ "," ++ jsArrJoin (y :: rest)

/-- One array element under String(...): a null element renders empty. -/
def jsElemToString : Json → String
  | .null => ""
  | .bool b => if b then "true" else "false"
  | .num n => toString n
  | .str s => s
  | .arr xs => jsArrJoin xs
  | .obj _ => "[object Object]"
end

/-- Array.prototype.join with ", " over the enum values of a schema
property, as the enum warning interpolates them. -/
def joinEnumValues : List Json → String
  | [] => ""
  | [x] => jsElemToString x
  | x :: y :: rest => jsElemToString x ++ ", " ++ joinEnumValues (y :: rest)

/-- One property in a tool's input schema: the optional declared type and
the optional enumerated allowed values (some = present and an array). -/
structure SchemaProperty where
  type : Option String
  enum : Option (List Json)

/-- A tool's input schema: the optional properties map (declaration order
kept) and the optional required-parameter list. -/
structure InputSchema where
  properties : Option (List (String × SchemaProperty))
  required : Option (List String)

/-- The slice of an MCP tool definition that TestGenerator reads. -/
structure ToolDefinition where
  name : String
  inputSchema : Option InputSchema

/-- Lookup of a key in the schema's properties object. -/
def lookupProp (props : List (String × SchemaProperty)) (name : String) :
    Option SchemaProperty :=
  (props.find? (fun p => p.1 == name)).map (fun p => p.2)

/-- The JavaScript `in` test on the candidate inputs, modelled as
own-enumerable-key membership. -/
def keyIn (inputs : List (String × Json)) (name : String) : Bool :=
  inputs.any (fun p => p.1 == name)

/-- Warning text for a missing required parameter. -/
def missingRequiredMsg (name : String) : String :=
  "Missing required input parameter: '" ++ name ++ "'."

/-- Warning text for an input key the schema does not declare. -/
def undeclaredMsg (name : String) : String :=
  "Input parameter '" ++ name ++ "' is not defined in the tool's input schema."

/-- Warning text for a type mismatch between declared type and value. -/
def typeMismatchMsg (name expected actual : String) : String :=
  "Input '" ++ name ++ "' type mismatch: Expected " ++ expected ++ ", got " ++
    actual ++ "."

/-- Warning text for a value outside the declared enum. -/
def enumMsg (name : String) (value : Json) (allowed : List Json) : String :=
  "Input '" ++ name ++ "' value '" ++ jsToString value ++
    "' is not in the allowed enum values: [" ++ joinEnumValues allowed ++ "]."

/-- The type-checking if/else chain of validateTestInputs for one declared
input key: declared type against JavaScript typeof, with the special
handling that an array value never satisfies declared object, and the
mismatch for declared object reports an array value as "array". -/
def typeCheckWarnings (name : String) (v : Json) (expectedType : Option String) :
    List String :=
  let actualType := typeofJson v
  if expectedType == some "string" then
    if actualType != "string" then [typeMismatchMsg name "string" actualType] else []
  else if expectedType == some "number" then
    if actualType != "number" then [typeMismatchMsg name "number" actualType] else []
  else if expectedType == some "boolean" then
    if actualType != "boolean" then [typeMismatchMsg name "boolean" actualType] else []
  else if expectedType == some "object" then
    if actualType != "object" || v.isArr then
      [typeMismatchMsg name "object" (if v.isArr then "array" else actualType)]
    else []
  else if expectedType == some "array" then
    if !v.isArr then [typeMismatchMsg name "array" actualType] else []
  else []

/-- The enum check of validateTestInputs for one declared input key
(membership in the declared values, deep structural equality). -/
def enumCheckWarnings (name : String) (v : Json) (enumVals : Option (List Json)) :
    List String :=
  match enumVals with
  | some vals =>
      if !(vals.any (fun x => x == v)) then [enumMsg name v vals] else []
  | none => []

/-- The per-input-key body of validateTestInputs: either the
undeclared-parameter warning (which leaves the validity bit true in the
source), or the type and enum checks (each of which clears it). -/
def keyResult (props : List (String × SchemaProperty)) (name : String) (v : Json) :
    List String × Bool :=
  match lookupProp props name with
  | none => ([undeclaredMsg name], true)
  | some sp =>
      let tw := typeCheckWarnings name v sp.type
      let ew := enumCheckWarnings name v sp.enum
      (tw ++ ew, tw.isEmpty && ew.isEmpty)

/-- All per-key warnings of the input loop, in input iteration order. -/
def inputsKeyWarnings (props : List (String × SchemaProperty))
    (inputs : List (String × Json)) : List String :=
  inputs.flatMap (fun p => (keyResult props p.1 p.2).1)

/-- The validity bit accumulated over the input loop. -/
def inputsKeyValid (props : List (String × SchemaProperty))
    (inputs : List (String × Json)) : Bool :=
  inputs.all (fun p => (keyResult props p.1 p.2).2)

/-- Result record of validateTestInputs. -/
structure InputValidation where
  isValid : Bool
  warnings : List String
deriving DecidableEq

/-- validateTestInputs from TestGenerator.ts: with no input schema or no
properties map it returns valid with no warnings; otherwise it emits the
missing-required warnings in schema-required order, then the per-key
warnings in input order. -/
def validateTestInputs (inputs : List (String × Json)) (tool : ToolDefinition) :
    InputValidation :=
  match tool.inputSchema with
  | none => ⟨true, []⟩
  | some schema =>
    match schema.properties with
    | none => ⟨true, []⟩
    | some props =>
      let requiredParameters := schema.required.getD []
      let missing := requiredParameters.filter (fun r => !(keyIn inputs r))
      { isValid := missing.isEmpty && inputsKeyValid props inputs,
        warnings := missing.map missingRequiredMsg ++ inputsKeyWarnings props inputs }

/-- Whether a JSON-like value is a plain object. -/
def Json.isObj : Json → Bool
  | .obj _ => true
  | _ => false

/-- Own-property access e["k"]: only plain objects carry named own
properties; on anything else the access yields undefined (none). -/
def jsGet : Json → String → Option Json
  | .obj fs, k => (fs.find? (fun p => p.1 == k)).map (fun p => p.2)
  | _, _ => none

/-- The own enumerable entries a for-in loop iterates: an object's fields
in insertion order, an array's indices (as decimal strings) paired with
its elements, nothing for scalars. -/
def jsEntries : Json → List (String × Json)
  | .obj fs => fs
  | .arr xs => xs.enum.map (fun p => (toString p.1, p.2))
  | _ => []

/-- JSON.stringify's escaping of one character inside a string literal
(the rarer control-character escapes are elided). -/
def escapeJsonChar (c : Char) : String :=
  if c = '"' then "\\\""
  else if c = '\\' then "\\\\"
  else if c = '\n' then "\\n"
  else if c = '\t' then "\\t"
  else if c = '\r' then "\\r"
  else String.singleton c

/-- JSON.stringify's escaping of a string body. -/
def escapeJson (s : String) : String :=
  String.join (s.data.map escapeJsonChar)

mutual
/-- JSON.stringify of a JSON-like value (no spacing argument). -/
def jsonStringify : Json → String
  | .null => "null"
  | .bool b => if b then "true" else "false"
  | .num n => toString n
  | .str s => "\"" ++ escapeJson s ++ "\""
  | .arr xs => "[" ++ stringifyElems xs ++ "]"
  | .obj fs => "\x7b" ++ stringifyFields fs ++ "\x7d"

/-- Array elements of JSON.stringify, comma separated. -/
def stringifyElems : List Json → String
  | [] => ""
  | [x] => jsonStringify x
  | x :: y :: rest => jsonStringify x ++ "," ++ stringifyElems (y :: rest)

/-- Object fields of JSON.stringify, comma separated. -/
def stringifyFields : List (String × Json) → String
  | [] => ""
  | [(k, v)] => "\"" ++ escapeJson k ++ "\":" ++ jsonStringify v
  | (k, v) :: f :: rest =>
      "\"" ++ escapeJson k ++ "\":" ++ jsonStringify v ++ "," ++
        stringifyFields (f :: rest)
end

/-- Severity of a console diagnostic the generator emits. -/
inductive DiagSeverity where
  | warn : DiagSeverity
  | error : DiagSeverity
deriving DecidableEq

/-- One console diagnostic (console.warn or console.error line). -/
structure Diag where
  severity : DiagSeverity
  text : String
deriving DecidableEq

/-- The expected outcome stored on a parsed test case. -/
structure ExpectedOutcome where
  status : String
  validationRules : List Json

/-- A test case as parseResponse materializes it. -/
structure TestCase where
  id : String
  toolName : String
  description : String
  naturalLanguageQuery : String
  inputs : Json
  expectedOutcome : ExpectedOutcome
  warnings : Option (List String)

/-- First structural check of parseResponse on an element: the element is
truthy and of JavaScript object type. -/
def checkStructured (e : Json) : Bool :=
  jsTruthy e && typeofJson e == "object"

/-- Description check: test.description is truthy and a string. -/
def checkDescription (e : Json) : Bool :=
  let d := (jsGet e "description").getD .null
  jsTruthy d && typeofJson d == "string"

/-- Inputs check: test.inputs is truthy and of object type. -/
def checkInputs (e : Json) : Bool :=
  let i := (jsGet e "inputs").getD .null
  jsTruthy i && typeofJson i == "object"

/-- Expected-outcome check: test.expectedOutcome is truthy and of object
type. -/
def checkOutcome (e : Json) : Bool :=
  let eo := (jsGet e "expectedOutcome").getD .null
  jsTruthy eo && typeofJson eo == "object"

/-- Status check: test.expectedOutcome.status is truthy and one of the
strings success and error. -/
def checkStatus (e : Json) : Bool :=
  let st := (jsGet ((jsGet e "expectedOutcome").getD .null) "status").getD .null
  st == Json.str "success" || st == Json.str "error"

/-- The five early-return checks of parseResponse on one parsed element,
conjoined: an element is materialized iff all pass. -/
def elementAccepted (e : Json) : Bool :=
  checkStructured e && checkDescription e && checkInputs e && checkOutcome e
    && checkStatus e

/-- The early-return chain of parseResponse on one element: the first
failing check's diagnostic, or none when the element is accepted. -/
def elementCheck (toolName : String) (idx : Nat) (e : Json) : Option Diag :=
  let d := (jsGet e "description").getD .null
  if !(checkStructured e) then
    some ⟨.warn, "[" ++ toolName ++ "] Test case at index " ++ toString idx ++
      " is not a valid object. Skipping."⟩
  else if !(checkDescription e) then
    some ⟨.warn, "[" ++ toolName ++ "] Test case at index " ++ toString idx ++
      " is missing or has an invalid 'description'. Skipping: " ++ jsonStringify e⟩
  else if !(checkInputs e) then
    some ⟨.warn, "[" ++ toolName ++ "] Test case \"" ++ jsToString d ++
      "\" is missing or has invalid 'inputs'. Skipping: " ++ jsonStringify e⟩
  else if !(checkOutcome e) then
    some ⟨.warn, "[" ++ toolName ++ "] Test case \"" ++ jsToString d ++
      "\" is missing or has invalid 'expectedOutcome'. Skipping: " ++ jsonStringify e⟩
  else if !(checkStatus e) then
    some ⟨.warn, "[" ++ toolName ++ "] Test case \"" ++ jsToString d ++
      "\" has missing or invalid 'expectedOutcome.status'. Skipping: " ++
      jsonStringify e⟩
  else none

/-- The element's description string as the parser carries it over. -/
def elemDescription (e : Json) : String :=
  match jsGet e "description" with
  | some (.str s) => s
  | _ => ""

/-- The element's inputs value as the parser carries it over. -/
def elemInputs (e : Json) : Json :=
  (jsGet e "inputs").getD .null

/-- The element's expectedOutcome.status string. -/
def elemStatus (e : Json) : String :=
  match jsGet ((jsGet e "expectedOutcome").getD .null) "status" with
  | some (.str s) => s
  | _ => ""

/-- The element's expectedOutcome.validationRules when they are an array,
empty otherwise (missing or null rules are never an error). -/
def elemRules (e : Json) : List Json :=
  match jsGet ((jsGet e "expectedOutcome").getD .null) "validationRules" with
  | some (.arr rs) => rs
  | _ => []

/-- Construction of one TestCase from an accepted element: fresh id, tool
name, the element's description and inputs, empty natural-language-query
placeholder, the given status, the given rules when they are an array and
empty otherwise, and — for success-status cases with a non-empty
conformance-warning list only — the warnings. -/
def mkTestCase (tool : ToolDefinition) (id : String) (e : Json) : TestCase :=
  let vr := validateTestInputs (jsEntries (elemInputs e)) tool
  let base : TestCase :=
    ⟨id, tool.name, elemDescription e, "", elemInputs e,
      ⟨elemStatus e, elemRules e⟩, none⟩
  if elemStatus e == "success" && !vr.warnings.isEmpty then
    { base with warnings := some vr.warnings }
  else base

/-- The forEach loop of parseResponse over the parsed array: each element
is checked independently, a rejected element contributes its diagnostic,
and later siblings are still processed. Ids are drawn from the supplied
generator (modelling uuidv4) applied to the element index. -/
def processElems (tool : ToolDefinition) (mkId : Nat → String) :
    Nat → List Json → List TestCase × List Diag
  | _, [] => ([], [])
  | idx, e :: rest =>
    let r := processElems tool mkId (idx + 1) rest
    match elementCheck tool.name idx e with
    | some d => (r.1, d :: r.2)
    | none => (mkTestCase tool (mkId idx) e :: r.1, r.2)

/-- parseResponse from TestGenerator.ts. The host-call outcomes are passed
in: `jsonMatch` is the fenced-code-block regex extraction, `parsed` the
outcome of JSON.parse on the chosen content (none when it throws, in which
case `parseErrMsg` is the host's thrown message), and `mkId` the uuid
generator. On parse failure the result is empty with two error
diagnostics; a non-array parse is recovered iff it looks like a single
test case. -/
def parseResponse (responseText : String) (jsonMatch : Option String)
    (parsed : Option Json) (parseErrMsg : String) (tool : ToolDefinition)
    (mkId : Nat → String) : List TestCase × List Diag :=
  let fenceDiags : List Diag :=
    match jsonMatch with
    | some _ => []
    | none => [⟨.warn, "[" ++ tool.name ++
        "] LLM response did not contain JSON within backticks. Attempting to parse directly."⟩]
  match parsed with
  | none =>
      ([], fenceDiags ++
        [⟨.error, "[" ++ tool.name ++
            "] Failed to parse JSON from LLM response. Error: " ++ parseErrMsg⟩,
         ⟨.error, "[" ++ tool.name ++ "] Raw response text was: " ++ responseText⟩])
  | some pj =>
    match pj with
    | .arr es =>
        let r := processElems tool mkId 0 es
        (r.1, fenceDiags ++ r.2)
    | _ =>
        let notArrayDiag : Diag := ⟨.warn, "[" ++ tool.name ++
          "] Parsed JSON is not an array. LLM response might be malformed. Raw response: "
          ++ responseText⟩
        if jsTruthy pj && typeofJson pj == "object"
            && jsTruthy ((jsGet pj "description").getD .null)
            && jsTruthy ((jsGet pj "inputs").getD .null)
            && jsTruthy ((jsGet pj "expectedOutcome").getD .null) then
          let recoverDiag : Diag := ⟨.warn, "[" ++ tool.name ++
            "] Attempting to recover by wrapping single test case object in an array."⟩
          let r := processElems tool mkId 0 [pj]
          (r.1, fenceDiags ++ [notArrayDiag, recoverDiag] ++ r.2)
        else ([], fenceDiags ++ [notArrayDiag])

/-- Runtime kind of a value among string, number, boolean, object and
array, as the specification's type-mismatch clause words it: an array's
kind is array, a null's kind is object. Spec-side definition, compared
against the source-translated checker. -/
def runtimeKind : Json → String
  | .str _ => "string"
  | .num _ => "number"
  | .bool _ => "boolean"
  | .arr _ => "array"
  | _ => "object"

/-- Whether a value is a structured (JavaScript object type) value — a
mapping or a sequence, never null or a scalar. Spec-side definition for
the parser-rejection claims. -/
def isStructuredValue : Json → Bool
  | .obj _ => true
  | .arr _ => true
  | _ => false

/-- The rejection predicate exactly as claim C4 words it: the element is
not a structured object, or description is missing or not a string, or
inputs is missing or not a structured object, or expectedOutcome is
missing or not a structured object, or expectedOutcome.status is missing
or not one of success and error. Spec-side definition. -/
def claimC4Rejects (e : Json) : Bool :=
  !(isStructuredValue e)
  || (match jsGet e "description" with
      | some (.str _) => false
      | _ => true)
  || (match jsGet e "inputs" with
      | some i => !(isStructuredValue i)
      | none => true)
  || (match jsGet e "expectedOutcome" with
      | some eo => !(isStructuredValue eo)
      | none => true)
  || (match jsGet ((jsGet e "expectedOutcome").getD .null) "status" with
      | some st => !(st == Json.str "success" || st == Json.str "error")
      | none => true)

/-- The rejection predicate of claim C4 as amended: additionally, an
empty-string description is rejected (the source tests truthiness before
the type of the description). Spec-side definition. -/
def amendedC4Rejects (e : Json) : Bool :=
  !(isStructuredValue e)
  || (match jsGet e "description" with
      | some (.str s) => s == ""
      | _ => true)
  || (match jsGet e "inputs" with
      | some i => !(isStructuredValue i)
      | none => true)
  || (match jsGet e "expectedOutcome" with
      | some eo => !(isStructuredValue eo)
      | none => true)
  || (match jsGet ((jsGet e "expectedOutcome").getD .null) "status" with
      | some st => !(st == Json.str "success" || st == Json.str "error")
      | none => true)

/-- A structurally complete element except that its description is the
empty string: the source's truthiness test rejects it, the claim's
wording accepts it. -/
def emptyDescElem : Json :=
  .obj [("description", .str ""), ("inputs", .obj []),
        ("expectedOutcome", .obj [("status", .str "success")])]

/-- A concrete tool whose schema requires location, for exercising the
parser's warning attachment. -/
def c7Tool : ToolDefinition :=
  ⟨"w", some ⟨some [("location", ⟨some "string", none⟩)], some ["location"]⟩⟩

/-- A structurally complete success-status element with empty inputs, so
the conformance checker warns about the missing required parameter. -/
def c7Elem : Json :=
  .obj [("description", .str "d"), ("inputs", .obj []),
        ("expectedOutcome", .obj [("status", .str "success")])]

/-- Modelled from the spec: one step of a property path — the repository
has no source for its ResponseValidator (Path Resolver, Rule Evaluator and
Validation Orchestrator); only that class's unit tests are present, so the
resolver is modelled from spec sections 4.1 and 9. -/
inductive PathStep where
  | key (k : String) : PathStep
  | idx (i : Nat) : PathStep

/-- Modelled from the spec: splitting a path's characters at the dots
(ResponseValidator's tokenizer has no source in the repository). -/
def splitOnDot : List Char → List (List Char)
  | [] => [[]]
  | c :: cs =>
      match splitOnDot cs with
      | [] => [[]]
      | h :: t => if c = '.' then [] :: h :: t else (c :: h) :: t

/-- Decimal value of a digit list. -/
def digitsToNat (cs : List Char) : Nat :=
  cs.foldl (fun acc c => acc * 10 + (c.toNat - '0'.toNat)) 0

/-- Modelled from the spec: one dot-separated segment, optionally suffixed
with a bracketed non-negative integer index, becomes a key step or a key
step followed by an index step (ResponseValidator's tokenizer has no
source in the repository). -/
def parseSeg (cs : List Char) : List PathStep :=
  match cs.findIdx? (fun c => c = '[') with
  | none => [.key (String.mk cs)]
  | some p =>
      let name := cs.take p
      let rest := cs.drop (p + 1)
      let digits := rest.dropLast
      if rest.getLast? == some ']' && !digits.isEmpty
          && digits.all (fun c => c.isDigit) then
        [.key (String.mk name), .idx (digitsToNat digits)]
      else [.key (String.mk cs)]

/-- Modelled from the spec: the tokenizer of the Path Resolver (no source
in the repository), producing key and index steps left to right. -/
def tokenizePath (path : String) : List PathStep :=
  (splitOnDot path.data).flatMap parseSeg

/-- Modelled from the spec: folding the steps over the root with early
exit to the NOT_FOUND sentinel (none) — mapping access by key, sequence
access by index; a missing key, an out-of-range index, indexing a
non-sequence or keying a non-mapping all yield none, never an error
(ResponseValidator has no source in the repository). -/
def resolveSteps : Json → List PathStep → Option Json
  | v, [] => some v
  | v, .key k :: rest =>
      match v with
      | .obj fs =>
          match jsGet (.obj fs) k with
          | some w => resolveSteps w rest
          | none => none
      | _ => none
  | v, .idx i :: rest =>
      match v with
      | .arr xs =>
          match xs.get? i with
          | some w => resolveSteps w rest
          | none => none
      | _ => none

/-- Modelled from the spec: resolve(root, path) of the Path Resolver (no
source in the repository); none is the NOT_FOUND sentinel, distinct from
some Json.null. -/
def resolve (root : Json) (path : String) : Option Json :=
  resolveSteps root (tokenizePath path)

/-- Substring search: whether pat occurs contiguously in s. -/
def strContainsB (s pat : String) : Bool :=
  s.data.tails.any (fun t => pat.data.isPrefixOf t)

/-- Modelled from the spec: the closed validation-rule variant of the
Response Rule Evaluator (no source in the repository); custom carries an
opaque predicate over the response payload, every rule a failure
message. -/
inductive VRule where
  | hasProperty (target : String) (message : String) : VRule
  | contains (target : String) (value : Json) (message : String) : VRule
  | matches (target : String) (pattern : String) (message : String) : VRule
  | equals (target : String) (value : Json) (message : String) : VRule
  | arrayLength (target : String) (value : Nat) (message : String) : VRule
  | custom (pred : Json → Bool) (message : String) : VRule

/-- Failure message carried by a rule. -/
def VRule.message : VRule → String
  | .hasProperty _ m => m
  | .contains _ _ m => m
  | .matches _ _ m => m
  | .equals _ _ m => m
  | .arrayLength _ _ m => m
  | .custom _ m => m

/-- Modelled from the spec: the Response Rule Evaluator (no source in the
repository) — hasProperty passes iff resolution yields anything but
NOT_FOUND; contains needs a string or sequence container; matches
resolves, coerces to text and applies the rule's pattern (the host regex
engine is modelled as literal-pattern search); equals is deep structural
equality; arrayLength needs a sequence of exactly the given length;
custom invokes the opaque predicate. A resolution failure is a rule
failure, never an error. -/
def evalRule (root : Json) : VRule → Bool
  | .hasProperty t _ => (resolve root t).isSome
  | .contains t v _ =>
      match resolve root t with
      | some (.str s) =>
          match v with
          | .str p => strContainsB s p
          | _ => false
      | some (.arr xs) => xs.any (fun x => x == v)
      | _ => false
  | .matches t pat _ =>
      match resolve root t with
      | some w => strContainsB (jsToString w) pat
      | none => false
  | .equals t v _ =>
      match resolve root t with
      | some w => w == v
      | none => false
  | .arrayLength t n _ =>
      match resolve root t with
      | some (.arr xs) => xs.length == n
      | _ => false
  | .custom f _ => f root

/-- Expected status of a test case, success or error. -/
inductive VStatus where
  | success : VStatus
  | error : VStatus
deriving DecidableEq

/-- Modelled from the spec: a tool response — data when success, an error
payload (message, optional code) when error (the executing client is
outside this core). -/
inductive VToolResponse where
  | success (data : Json) : VToolResponse
  | error (message : String) (code : Option String) : VToolResponse

/-- Expected outcome of a validator test case: status plus the declared
rules in order. -/
structure VExpectedOutcome where
  status : VStatus
  validationRules : List VRule

/-- The slice of a test case the Validation Orchestrator reads. -/
structure VTestCase where
  id : String
  toolName : String
  description : String
  inputs : Json
  expectedOutcome : VExpectedOutcome

/-- Modelled from the spec: the error payload embedded under key error of
the synthetic root for error-path rule evaluation. -/
def errorJson (message : String) (code : Option String) : Json :=
  .obj (("message", .str message) ::
    (match code with
     | some c => [("code", Json.str c)]
     | none => []))

/-- Validation verdict: validity plus the failing messages in order. -/
structure ValidationResult where
  valid : Bool
  errors : List String
deriving DecidableEq

/-- Modelled from the spec: the Validation Orchestrator's validateResponse
(no source in the repository; its unit tests are) — a two-branch decision
on (expected status, actual status): a status mismatch yields the single
synthesized error and evaluates no rule; matching statuses evaluate every
declared rule in order, without short-circuit, against response.data or
the synthetic error root, and collect the failing rules' messages. -/
def validateResponse (response : VToolResponse) (tc : VTestCase) :
    ValidationResult :=
  match tc.expectedOutcome.status, response with
  | .success, .error m _ => ⟨false, ["Tool execution failed: " ++ m]⟩
  | .error, .success _ =>
      ⟨false, ["Expected tool to return an error, but got success."]⟩
  | .success, .success data =>
      let errs := tc.expectedOutcome.validationRules.filterMap
        (fun r => if evalRule data r then none else some r.message)
      ⟨errs.isEmpty, errs⟩
  | .error, .error m c =>
      let root := Json.obj [("error", errorJson m c)]
      let errs := tc.expectedOutcome.validationRules.filterMap
        (fun r => if evalRule root r then none else some r.message)
      ⟨errs.isEmpty, errs⟩

theorem missingRequiredMsg_injective : Function.Injective missingRequiredMsg := by
  intro a b h
  have hd : (missingRequiredMsg a).data = (missingRequiredMsg b).data := by rw [h]
  simp only [missingRequiredMsg] at hd
  have hd2 : "Missing required input parameter: '".data ++ (a.data ++ "'.".data)
      = "Missing required input parameter: '".data ++ (b.data ++ "'.".data) := by
    simpa [String.data_append, List.append_assoc] using hd
  exact String.ext (List.append_cancel_right (List.append_cancel_left hd2))

theorem missingRequiredMsg_head (n : String) :
    (missingRequiredMsg n).data.head? = some 'M' := rfl

theorem typeCheckWarnings_all_head (name : String) (v : Json) (t : Option String) :
    ∀ s ∈ typeCheckWarnings name v t, s.data.head? = some 'I' := by
  intro s hs
  simp only [typeCheckWarnings] at hs
  repeat' split at hs
  all_goals first
    | exact absurd hs (List.not_mem_nil s)
    | (rw [List.mem_singleton] at hs; subst hs; rfl)

theorem enumCheckWarnings_all_head (name : String) (v : Json)
    (ev : Option (List Json)) :
    ∀ s ∈ enumCheckWarnings name v ev, s.data.head? = some 'I' := by
  intro s hs
  simp only [enumCheckWarnings] at hs
  repeat' split at hs
  all_goals first
    | exact absurd hs (List.not_mem_nil s)
    | (rw [List.mem_singleton] at hs; subst hs; rfl)

theorem keyResult_all_head (props : List (String × SchemaProperty))
    (name : String) (v : Json) :
    ∀ s ∈ (keyResult props name v).1, s.data.head? = some 'I' := by
  intro s hs
  simp only [keyResult] at hs
  cases h : lookupProp props name with
  | none =>
      rw [h] at hs
      simp only [List.mem_singleton] at hs
      subst hs
      rfl
  | some sp =>
      rw [h] at hs
      simp only [] at hs
      rcases List.mem_append.mp hs with h1 | h2
      · exact typeCheckWarnings_all_head name v sp.type s h1
      · exact enumCheckWarnings_all_head name v sp.enum s h2

theorem inputsKeyWarnings_all_head (props : List (String × SchemaProperty))
    (inputs : List (String × Json)) :
    ∀ s ∈ inputsKeyWarnings props inputs, s.data.head? = some 'I' := by
  intro s hs
  simp only [inputsKeyWarnings] at hs
  rcases List.mem_flatMap.mp hs with ⟨p, hp, hmem⟩
  exact keyResult_all_head props p.1 p.2 s hmem

/-- C9: for every tool whose definition has no input schema, or whose
schema has no properties map, validateTestInputs returns a valid result
with no warnings for every candidate inputs — in particular names listed
in the schema's required list produce no missing-required warning, since
the checker returns before the required-parameter loop. -/
theorem C9_no_schema_no_warnings (inputs : List (String × Json))
    (toolName : String) (req : Option (List String)) :
    validateTestInputs inputs ⟨toolName, none⟩ = ⟨true, []⟩
    ∧ validateTestInputs inputs ⟨toolName, some ⟨none, req⟩⟩ = ⟨true, []⟩ :=
  ⟨rfl, rfl⟩

/-- C10: a null value supplied for an input parameter of declared type
object never produces a type-mismatch warning — typeof null is object and
null is not an array, so the per-key warnings for that key reduce to the
enum check alone. -/
theorem C10_null_for_object_param (props : List (String × SchemaProperty))
    (name : String) (sp : SchemaProperty)
    (hlk : lookupProp props name = some sp) (hty : sp.type = some "object") :
    typeCheckWarnings name Json.null sp.type = []
    ∧ (keyResult props name Json.null).1
      = enumCheckWarnings name Json.null sp.enum := by
  constructor
  · rw [hty]
    rfl
  · simp [keyResult, hlk, hty, typeCheckWarnings, typeofJson, Json.isArr]

/-- Witness for C10 at a concrete schema: property opts of declared type
object with no enum, value null: no warning at all. -/
theorem C10_witness :
    lookupProp [("opts", (⟨some "object", none⟩ : SchemaProperty))] "opts"
      = some ⟨some "object", none⟩
    ∧ typeCheckWarnings "opts" Json.null (some "object") = []
    ∧ (keyResult [("opts", (⟨some "object", none⟩ : SchemaProperty))]
        "opts" Json.null).1 = enumCheckWarnings "opts" Json.null none := by
  have h := C10_null_for_object_param [("opts", ⟨some "object", none⟩)] "opts"
    ⟨some "object", none⟩ rfl rfl
  exact ⟨rfl, h.1, h.2⟩

/-- C5: with an input schema and properties map present, the checker's
warnings are exactly the missing-required warnings — one warning
Missing required input parameter: '<name>'. per required name absent from
the inputs, in schema-required order — followed by all per-key warnings;
and (required being a set, hence duplicate-free) each such warning occurs
exactly once in the whole warning list. -/
theorem C5_missing_required_warnings (toolName : String)
    (props : List (String × SchemaProperty)) (required : List String)
    (inputs : List (String × Json)) (hnd : required.Nodup) :
    (validateTestInputs inputs
        ⟨toolName, some ⟨some props, some required⟩⟩).warnings
      = (required.filter (fun r => !(keyIn inputs r))).map missingRequiredMsg
        ++ inputsKeyWarnings props inputs
    ∧ ∀ r ∈ required, keyIn inputs r = false →
        ((validateTestInputs inputs
            ⟨toolName, some ⟨some props, some required⟩⟩).warnings).count
          (missingRequiredMsg r) = 1 := by
  refine ⟨rfl, ?_⟩
  intro r hr hk
  have hwarn : (validateTestInputs inputs
      ⟨toolName, some ⟨some props, some required⟩⟩).warnings
      = (required.filter (fun x => !(keyIn inputs x))).map missingRequiredMsg
        ++ inputsKeyWarnings props inputs := rfl
  rw [hwarn, List.count_append]
  have h1 : ((required.filter (fun x => !(keyIn inputs x))).map
      missingRequiredMsg).count (missingRequiredMsg r) = 1 := by
    rw [List.count_map_of_injective _ missingRequiredMsg missingRequiredMsg_injective]
    exact List.count_eq_one_of_mem (hnd.filter _)
      (List.mem_filter.mpr ⟨hr, by simp [hk]⟩)
  have h2 : (inputsKeyWarnings props inputs).count (missingRequiredMsg r) = 0 := by
    rw [List.count_eq_zero]
    intro hmem
    have h3 := inputsKeyWarnings_all_head props inputs _ hmem
    rw [missingRequiredMsg_head r] at h3
    exact absurd h3 (by decide)
  rw [h1, h2]

/-- Witness for C5 at the Scenario A schema: required location absent from
inputs containing only unit. -/
theorem C5_witness :
    (validateTestInputs [("unit", Json.str "celsius")]
        ⟨"weather", some ⟨some [("location", ⟨some "string", none⟩)],
          some ["location"]⟩⟩).warnings
      = [missingRequiredMsg "location", undeclaredMsg "unit"]
    ∧ ((validateTestInputs [("unit", Json.str "celsius")]
        ⟨"weather", some ⟨some [("location", ⟨some "string", none⟩)],
          some ["location"]⟩⟩).warnings).count
        (missingRequiredMsg "location") = 1 := by
  have h := C5_missing_required_warnings "weather"
    [("location", ⟨some "string", none⟩)] ["location"]
    [("unit", Json.str "celsius")] (by decide)
  exact ⟨by decide, h.2 "location" (by decide) (by decide)⟩

/-- C6: for every input key declared with a type among string, number,
boolean, object and array, the checker's type check passes iff the
declared type equals the value's runtime kind among those five (so an
array value never satisfies declared object), any mismatch emits exactly
one warning Input '<name>' type mismatch: Expected <expected>, got
<actual>., the per-key warnings are that type check followed by the enum
check, and a number supplied for a declared string yields the Scenario B
warning verbatim. -/
theorem C6_type_mismatch_check (name : String) (v : Json) (t : String)
    (ht : t = "string" ∨ t = "number" ∨ t = "boolean" ∨ t = "object"
      ∨ t = "array") :
    (typeCheckWarnings name v (some t) = [] ↔ runtimeKind v = t)
    ∧ (runtimeKind v ≠ t →
        ∃ shown, typeCheckWarnings name v (some t)
          = [typeMismatchMsg name t shown])
    ∧ (∀ props sp, lookupProp props name = some sp → sp.type = some t →
        (keyResult props name v).1
          = typeCheckWarnings name v (some t) ++ enumCheckWarnings name v sp.enum)
    ∧ typeCheckWarnings "paramString" (Json.num 123) (some "string")
      = [typeMismatchMsg "paramString" "string" "number"] := by
  refine ⟨?_, ?_, ?_, rfl⟩
  · rcases ht with rfl | rfl | rfl | rfl | rfl <;> cases v <;>
      first
        | exact iff_of_true rfl rfl
        | exact iff_of_false (List.cons_ne_nil _ _) (by simp [runtimeKind])
  · rcases ht with rfl | rfl | rfl | rfl | rfl <;> cases v <;>
      (intro h
       first
         | exact absurd rfl h
         | exact ⟨_, rfl⟩)
  · intro props sp hlk hty
    simp [keyResult, hlk, hty]

theorem str_append_assoc (a b c : String) : (a ++ b) ++ c = a ++ (b ++ c) :=
  String.ext (by simp [String.data_append])

theorem mkTestCase_inputs (tool : ToolDefinition) (id : String) (e : Json) :
    (mkTestCase tool id e).inputs = elemInputs e := by
  simp only [mkTestCase]
  split <;> rfl

theorem mkTestCase_status (tool : ToolDefinition) (id : String) (e : Json) :
    (mkTestCase tool id e).expectedOutcome.status = elemStatus e := by
  simp only [mkTestCase]
  split <;> rfl

theorem mkTestCase_warnings (tool : ToolDefinition) (id : String) (e : Json) :
    (mkTestCase tool id e).warnings
      = (if elemStatus e == "success"
            && !(validateTestInputs (jsEntries (elemInputs e)) tool).warnings.isEmpty
         then some (validateTestInputs (jsEntries (elemInputs e)) tool).warnings
         else none) := by
  simp only [mkTestCase]
  split <;> rfl

theorem elementCheck_none_iff (toolName : String) (idx : Nat) (e : Json) :
    elementCheck toolName idx e = none ↔ elementAccepted e = true := by
  simp only [elementCheck, elementAccepted]
  cases h1 : checkStructured e <;> cases h2 : checkDescription e <;>
    cases h3 : checkInputs e <;> cases h4 : checkOutcome e <;>
    cases h5 : checkStatus e <;> simp

theorem processElems_fst (tool : ToolDefinition) (mkId : Nat → String)
    (i : Nat) (es : List Json) :
    (processElems tool mkId i es).1
      = ((List.enumFrom i es).filter (fun p => elementAccepted p.2)).map
          (fun p => mkTestCase tool (mkId p.1) p.2) := by
  induction es generalizing i with
  | nil => rfl
  | cons e rest ih =>
      simp only [processElems, List.enumFrom]
      cases h : elementCheck tool.name i e with
      | some d =>
          have ha : elementAccepted e = false := by
            cases hacc : elementAccepted e
            · rfl
            · have := (elementCheck_none_iff tool.name i e).mpr hacc
              rw [h] at this
              exact absurd this (by simp)
          simp [List.filter, ha, ih (i + 1)]
      | none =>
          have ha : elementAccepted e = true :=
            (elementCheck_none_iff tool.name i e).mp h
          simp [List.filter, ha, ih (i + 1)]

theorem mem_processElems (tool : ToolDefinition) (mkId : Nat → String)
    (i : Nat) (es : List Json) (tc : TestCase)
    (h : tc ∈ (processElems tool mkId i es).1) :
    ∃ p : Nat × Json, elementAccepted p.2 = true
      ∧ tc = mkTestCase tool (mkId p.1) p.2 := by
  rw [processElems_fst] at h
  rcases List.mem_map.mp h with ⟨p, hp, rfl⟩
  exact ⟨p, by simpa using (List.mem_filter.mp hp).2, rfl⟩

theorem checkStructured_eq (e : Json) :
    checkStructured e = isStructuredValue e := by
  cases e <;> simp [checkStructured, jsTruthy, typeofJson, isStructuredValue]

theorem checkDescription_eq (e : Json) :
    checkDescription e
      = !(match jsGet e "description" with
          | some (.str s) => s == ""
          | _ => true) := by
  cases h : jsGet e "description" with
  | none => simp [checkDescription, h, jsTruthy, typeofJson]
  | some v => cases v <;> simp [checkDescription, h, jsTruthy, typeofJson]

theorem checkInputs_eq (e : Json) :
    checkInputs e
      = !(match jsGet e "inputs" with
          | some i => !(isStructuredValue i)
          | none => true) := by
  cases h : jsGet e "inputs" with
  | none => simp [checkInputs, h, jsTruthy, typeofJson]
  | some v =>
      cases v <;> simp [checkInputs, h, jsTruthy, typeofJson, isStructuredValue]

theorem checkOutcome_eq (e : Json) :
    checkOutcome e
      = !(match jsGet e "expectedOutcome" with
          | some eo => !(isStructuredValue eo)
          | none => true) := by
  cases h : jsGet e "expectedOutcome" with
  | none => simp [checkOutcome, h, jsTruthy, typeofJson]
  | some v =>
      cases v <;> simp [checkOutcome, h, jsTruthy, typeofJson, isStructuredValue]

theorem checkStatus_eq (e : Json) :
    checkStatus e
      = !(match jsGet ((jsGet e "expectedOutcome").getD .null) "status" with
          | some st => !(st == Json.str "success" || st == Json.str "error")
          | none => true) := by
  cases h : jsGet ((jsGet e "expectedOutcome").getD .null) "status" with
  | none =>
      simp only [checkStatus]
      rw [h]
      rfl
  | some st =>
      simp only [checkStatus]
      rw [h]
      simp [Bool.not_not]

theorem elementAccepted_eq_amended (e : Json) :
    elementAccepted e = !(amendedC4Rejects e) := by
  simp only [elementAccepted, amendedC4Rejects]
  rw [checkStructured_eq, checkDescription_eq, checkInputs_eq, checkOutcome_eq,
    checkStatus_eq]
  simp [Bool.not_or, Bool.not_not]

/-- Witness for C6 at the Scenario B instance: declared string, value the
number 123. -/
theorem C6_witness :
    ("string" = "string" ∨ "string" = "number" ∨ "string" = "boolean"
      ∨ "string" = "object" ∨ "string" = "array")
    ∧ (typeCheckWarnings "paramString" (Json.num 123) (some "string") = []
        ↔ runtimeKind (Json.num 123) = "string") := by
  have h := C6_type_mismatch_check "paramString" (Json.num 123) "string" (Or.inl rfl)
  exact ⟨Or.inl rfl, h.1⟩

/-- C3: for every raw text whose extracted payload fails JSON parsing
(parsed = none), parseResponse returns the empty sequence of test cases —
never a partial result — and among its diagnostics is an error diagnostic
whose text contains the tool name and the raw response text. -/
theorem C3_parse_failure_empty (responseText parseErrMsg : String)
    (jsonMatch : Option String) (tool : ToolDefinition) (mkId : Nat → String) :
    (parseResponse responseText jsonMatch none parseErrMsg tool mkId).1 = []
    ∧ ∃ d, d ∈ (parseResponse responseText jsonMatch none parseErrMsg tool mkId).2
        ∧ d.severity = .error
        ∧ (∃ pre post, d.text = pre ++ tool.name ++ post)
        ∧ (∃ pre, d.text = pre ++ responseText) := by
  refine ⟨rfl,
    ⟨.error, "[" ++ tool.name ++ "] Raw response text was: " ++ responseText⟩,
    ?_, rfl,
    ⟨"[", "] Raw response text was: " ++ responseText, ?_⟩,
    ⟨"[" ++ tool.name ++ "] Raw response text was: ", rfl⟩⟩
  · apply List.mem_append_right
    simp
  · rw [str_append_assoc]

/-- Counterexample to C4 as stated: the element whose description is the
empty string — present and a string, so the claim's rejection predicate
is false at it — is nevertheless skipped by the source (it tests
truthiness of the description before its type), so parseResponse
materializes nothing from it. -/
theorem C4_counterexample :
    claimC4Rejects emptyDescElem = false
    ∧ elementAccepted emptyDescElem = false
    ∧ (parseResponse "raw" (some "c") (some (.arr [emptyDescElem])) ""
        ⟨"tool", none⟩ (fun _ => "id")).1 = [] :=
  ⟨rfl, rfl, rfl⟩

/-- C4 (amended): parseResponse rejects an element iff it is not of
JavaScript object type, or its description is missing, not a string, or
the empty string, or its inputs is missing or not of object type, or its
expectedOutcome is missing or not of object type, or its
expectedOutcome.status is missing or not one of the strings success and
error; every other element is materialized, and sibling elements after a
rejected one are still processed — the materialized cases are exactly the
accepted elements, in order. -/
theorem C4_amended_rejection :
    (∀ e, elementAccepted e = !(amendedC4Rejects e))
    ∧ (∀ toolName idx e,
        elementCheck toolName idx e = none ↔ elementAccepted e = true)
    ∧ (∀ (tool : ToolDefinition) (mkId : Nat → String) (i : Nat) (es : List Json),
        (processElems tool mkId i es).1
          = ((List.enumFrom i es).filter (fun p => elementAccepted p.2)).map
              (fun p => mkTestCase tool (mkId p.1) p.2)) :=
  ⟨elementAccepted_eq_amended, elementCheck_none_iff, processElems_fst⟩

/-- C7: every TestCase produced by parseResponse carries a warnings field
exactly when its status is success and the conformance checker returned a
non-empty warning list for its inputs; error-status cases and
warning-free success cases carry none. -/
theorem C7_warnings_only_success (responseText parseErrMsg : String)
    (jsonMatch : Option String) (parsed : Option Json) (tool : ToolDefinition)
    (mkId : Nat → String) (tc : TestCase)
    (htc : tc ∈ (parseResponse responseText jsonMatch parsed parseErrMsg tool mkId).1) :
    tc.warnings
      = (if tc.expectedOutcome.status == "success"
            && !(validateTestInputs (jsEntries tc.inputs) tool).warnings.isEmpty
         then some (validateTestInputs (jsEntries tc.inputs) tool).warnings
         else none) := by
  have hmem : ∃ i es, tc ∈ (processElems tool mkId i es).1 := by
    unfold parseResponse at htc
    cases parsed with
    | none => simp at htc
    | some pj =>
        repeat' split at htc
        all_goals first
          | exact ⟨0, _, htc⟩
          | exact ⟨0, _, by simpa using htc⟩
          | simp at htc
  rcases hmem with ⟨i, es, hm⟩
  rcases mem_processElems tool mkId i es tc hm with ⟨p, hacc, rfl⟩
  rw [mkTestCase_warnings, mkTestCase_status, mkTestCase_inputs]

/-- Witness for C7: a success-status element with empty inputs under a
schema requiring location is materialized with the missing-required
warning attached. -/
theorem C7_witness :
    (mkTestCase c7Tool "id" c7Elem)
      ∈ (parseResponse "raw" (some "x") (some (.arr [c7Elem])) "" c7Tool
          (fun _ => "id")).1
    ∧ (mkTestCase c7Tool "id" c7Elem).warnings
      = some [missingRequiredMsg "location"] := by
  have hmem : (mkTestCase c7Tool "id" c7Elem)
      ∈ (parseResponse "raw" (some "x") (some (.arr [c7Elem])) "" c7Tool
          (fun _ => "id")).1 := by
    show (mkTestCase c7Tool "id" c7Elem) ∈ [mkTestCase c7Tool "id" c7Elem]
    exact List.mem_singleton.mpr rfl
  have h := C7_warnings_only_success "raw" "" (some "x") (some (.arr [c7Elem]))
    c7Tool (fun _ => "id") (mkTestCase c7Tool "id" c7Elem) hmem
  exact ⟨hmem, h.trans (by decide)⟩

theorem filterMap_failures_isEmpty (root : Json) (rs : List VRule) :
    (rs.filterMap
        (fun r => if evalRule root r then none else some r.message)).isEmpty
      = rs.all (fun r => evalRule root r) := by
  induction rs with
  | nil => rfl
  | cons r rest ih =>
      by_cases h : evalRule root r <;> simp [List.filterMap_cons, h, ih]

/-- C1: when the expected outcome is success and the actual response is an
error, validateResponse is invalid with the single error
Tool execution failed: <error.message>, and the declared rules are not
evaluated — the verdict does not depend on them. -/
theorem C1_success_expected_error_actual (m : String) (code : Option String)
    (id toolName desc : String) (inputs : Json) (rules : List VRule) :
    validateResponse (.error m code)
        ⟨id, toolName, desc, inputs, ⟨.success, rules⟩⟩
      = ⟨false, ["Tool execution failed: " ++ m]⟩
    ∧ validateResponse (.error m code)
        ⟨id, toolName, desc, inputs, ⟨.success, rules⟩⟩
      = validateResponse (.error m code)
        ⟨id, toolName, desc, inputs, ⟨.success, []⟩⟩ :=
  ⟨rfl, rfl⟩

/-- C2: when the expected outcome is error and the actual response is an
error, validateResponse evaluates every declared rule in declaration
order, without short-circuit, against the synthetic root embedding the
error payload under key error — the verdict is valid iff every rule
passes, the errors are the failing rules' messages in order — and in
particular the Scenario D matches rule on error.message with pattern fail
passes against the error message fail, yielding a valid result. -/
theorem C2_error_expected_error_actual (m : String) (code : Option String)
    (id toolName desc : String) (inputs : Json) (rules : List VRule) :
    (validateResponse (.error m code)
        ⟨id, toolName, desc, inputs, ⟨.error, rules⟩⟩).errors
      = rules.filterMap
          (fun r => if evalRule (Json.obj [("error", errorJson m code)]) r
                    then none else some r.message)
    ∧ (validateResponse (.error m code)
        ⟨id, toolName, desc, inputs, ⟨.error, rules⟩⟩).valid
      = rules.all (fun r => evalRule (Json.obj [("error", errorJson m code)]) r)
    ∧ validateResponse (.error "fail" none)
        ⟨"1", "test", "desc", .obj [],
          ⟨.error, [.matches "error.message" "fail" "msg"]⟩⟩
      = ⟨true, []⟩ :=
  ⟨rfl, filterMap_failures_isEmpty (Json.obj [("error", errorJson m code)]) rules,
    rfl⟩

/-- C8: path resolution is total and fail-soft — a missing key, an
out-of-range index, indexing a non-sequence and keying a non-mapping all
yield the NOT_FOUND sentinel (none), which is distinct from a resolved
null; consequently a matches rule on a nonexistent path simply fails, an
arrayLength rule on a non-sequence simply fails, and a failing rule
contributes exactly its message to the verdict. -/
theorem C8_resolution_fail_soft :
    (∀ fs k rest, jsGet (.obj fs) k = none →
        resolveSteps (.obj fs) (.key k :: rest) = none)
    ∧ (∀ (xs : List Json) i rest, xs.length ≤ i →
        resolveSteps (.arr xs) (.idx i :: rest) = none)
    ∧ (∀ (v : Json) i rest, v.isArr = false →
        resolveSteps v (.idx i :: rest) = none)
    ∧ (∀ (v : Json) k rest, v.isObj = false →
        resolveSteps v (.key k :: rest) = none)
    ∧ resolve (.obj [("a", .null)]) "a" = some Json.null
    ∧ resolve (.obj []) "a" = none
    ∧ some Json.null ≠ (none : Option Json)
    ∧ (∀ t pat msg root, resolve root t = none →
        evalRule root (.matches t pat msg) = false)
    ∧ (∀ t n msg root w, resolve root t = some w → w.isArr = false →
        evalRule root (.arrayLength t n msg) = false)
    ∧ (∀ (data : Json) (r : VRule) id toolName desc inputs,
        evalRule data r = false →
        validateResponse (.success data)
            ⟨id, toolName, desc, inputs, ⟨.success, [r]⟩⟩
          = ⟨false, [r.message]⟩) := by
  refine ⟨?_, ?_, ?_, ?_, rfl, rfl, by simp, ?_, ?_, ?_⟩
  · intro fs k rest h
    simp [resolveSteps, h]
  · intro xs i rest h
    simp [resolveSteps, List.getElem?_eq_none h]
  · intro v i rest h
    cases v <;> simp_all [resolveSteps, Json.isArr]
  · intro v k rest h
    cases v <;> simp_all [resolveSteps, Json.isObj]
  · intro t pat msg root h
    simp [evalRule, h]
  · intro t n msg root w h hw
    cases w <;> simp_all [evalRule, Json.isArr]
  · intro data r id toolName desc inputs h
    simp [validateResponse, List.filterMap_cons, h, List.isEmpty]

/-- Witness for C8 at concrete inputs: missing key, out-of-range index,
index into a string, key into a number, matches on a nonexistent path,
arrayLength on a non-sequence, and a failing rule's message as the sole
verdict output. -/
theorem C8_witness :
    resolveSteps (.obj []) [.key "a"] = none
    ∧ resolveSteps (.arr []) [.idx 0] = none
    ∧ resolveSteps (.str "x") [.idx 0] = none
    ∧ resolveSteps (.num 3) [.key "a"] = none
    ∧ evalRule (.obj []) (.matches "missing.path" "p" "msg") = false
    ∧ evalRule (.obj [("a", .str "x")]) (.arrayLength "a" 3 "m") = false
    ∧ validateResponse (.success (.obj []))
        ⟨"1", "t", "d", .obj [], ⟨.success, [.hasProperty "foo" "missing foo"]⟩⟩
      = ⟨false, ["missing foo"]⟩ := by
  obtain ⟨h1, h2, h3, h4, -, -, -, h5, h6, h7⟩ := C8_resolution_fail_soft
  exact ⟨h1 [] "a" [] rfl, h2 [] 0 [] (by decide), h3 (.str "x") 0 [] rfl,
    h4 (.num 3) "a" [] rfl, h5 "missing.path" "p" "msg" (.obj []) rfl,
    h6 "a" 3 "m" (.obj [("a", .str "x")]) (.str "x") rfl rfl,
    h7 (.obj []) (.hasProperty "foo" "missing foo") "1" "t" "d" (.obj []) rfl⟩

end McpTester
